/-
Verification of the generative-content-cache backend
(`backend/services/*.py` of agentic-security-ui).

The Python modules are shallowly embedded: JSON values become the inductive
`JVal`, the on-disk JSON cache files become association lists, wall-clock
seconds become `Int`, strings handled by the response cleaner become
`List Char` (Python `str.split`/`join`/`strip` are re-implemented below),
and the external OpenAI call becomes an explicit argument carrying the raw
text the model would return (`Option` so that an upstream failure, which
the services do not catch, is representable). Fallible Python code
(pydantic validation, `json.loads`) returns `Option`.
-/
import Mathlib

set_option autoImplicit false

/-! ## JSON values

`JVal` models the Python objects produced by `json.loads`: strings, numbers,
booleans, null, arrays and objects. Objects are association lists keyed by
strings (Python dicts with insertion order). -/

inductive JVal where
  | null : JVal
  | bool (b : Bool) : JVal
  | num (n : Int) : JVal
  | str (s : String) : JVal
  | arr (xs : List JVal) : JVal
  | obj (kvs : List (String × JVal)) : JVal

/-- Python `d.get(key)` / `key in d` on an association list: first binding wins. -/
def alookup {α : Type} : List (String × α) → String → Option α
  | [], _ => none
  | (k, v) :: rest, key => if k = key then some v else alookup rest key

/-- Python `d[key] = v`: replace the binding if present, else append. -/
def aset {α : Type} : List (String × α) → String → α → List (String × α)
  | [], key, v => [(key, v)]
  | (k, w) :: rest, key, v =>
    if k = key then (key, v) :: rest else (k, w) :: aset rest key v

/-- Python `del d[key]`: drop the (unique) binding for `key`. -/
def aerase {α : Type} : List (String × α) → String → List (String × α)
  | [], _ => []
  | (k, w) :: rest, key => if k = key then rest else (k, w) :: aerase rest key

/-- A Python list comprehension `[f(x) for x in xs]` whose body may raise:
`none` models the exception propagating out of the whole comprehension. -/
def mapOpt {α β : Type} (f : α → Option β) : List α → Option (List β)
  | [] => some []
  | x :: xs =>
    match f x, mapOpt f xs with
    | some y, some ys => some (y :: ys)
    | _, _ => none

/-! ## Python string helpers

The response cleaner in `content_generator.py` (and its copies in
`career_generator.py`, `article_generator.py`, `transition_planner.py`) uses
`str.strip`, `str.split("\n")`, `"\n".join` and `str.startswith("```")`.
We model Python strings as `List Char` and re-implement those operations. -/

/-- ASCII whitespace stripped by Python `str.strip()`. -/
def isPyWS (c : Char) : Bool :=
  c = ' ' || c = '\t' || c = '\n' || c = '\r' || c = Char.ofNat 11 || c = Char.ofNat 12

/-- Python `s.strip()`: drop leading and trailing whitespace. -/
def pyStrip (s : List Char) : List Char :=
  ((s.dropWhile isPyWS).reverse.dropWhile isPyWS).reverse

/-- Python `s.split("\n")`. Always returns at least one (possibly empty) line. -/
def splitLines : List Char → List (List Char)
  | [] => [[]]
  | c :: rest =>
    match splitLines rest with
    | [] => [[c]]
    | l :: ls => if c = '\n' then [] :: l :: ls else (c :: l) :: ls

/-- Python `"\n".join(lines)`. -/
def joinLines : List (List Char) → List Char
  | [] => []
  | [l] => l
  | l :: l' :: ls => l ++ '\n' :: joinLines (l' :: ls)

/-- Python `s.startswith(pat)`. -/
def startsWithChars : List Char → List Char → Bool
  | [], _ => true
  | _ :: _, [] => false
  | p :: ps, c :: cs => p = c && startsWithChars ps cs

/-- The markdown fence marker the services test for. -/
def fenceChars : List Char := "```".data

/-! ## The response cleaner and parser

`content_generator.generate_item_detail` lines 100–110 (repeated verbatim in
`career_generator`, `article_generator` and `transition_planner`):

```
cleaned = raw.strip()
if cleaned.startswith("```"):
    lines = cleaned.split("\n")
    cleaned = "\n".join(lines[1:-1]).strip()
try:
    payload = json.loads(cleaned)
except json.JSONDecodeError:
    payload = _fallback_payload(item)
```

`json.loads` is the external strict JSON decoder; it is abstracted as a
`decode` function returning `none` on `JSONDecodeError`. -/

def cleanText (raw : List Char) : List Char :=
  let cleaned := pyStrip raw
  if startsWithChars fenceChars cleaned then
    pyStrip (joinLines (((splitLines cleaned).drop 1).dropLast))
  else cleaned

def parseResponse (decode : List Char → Option JVal) (fallback : JVal)
    (raw : List Char) : JVal :=
  match decode (cleanText raw) with
  | some payload => payload
  | none => fallback

/-! ## TTL and the disk-backed store

`CACHE_TTL_SECONDS = 10 * 24 * 60 * 60` appears identically in
`content_generator.py`, `career_generator.py`, `article_generator.py` and
`transition_planner.py`. A store file is a JSON object mapping cache keys to
`{"cached_at": seconds, "data": payload}` entries. -/

def CACHE_TTL_SECONDS : Int := 10 * 24 * 60 * 60

structure CacheEntry where
  cached_at : Int
  data : JVal

abbrev Store := List (String × CacheEntry)

/-- `_is_entry_valid` (content_generator.py lines 48–51, career_generator.py
lines 91–93, transition_planner.py): `(time.time() - cached_at) < CACHE_TTL_SECONDS`. -/
def is_entry_valid (now : Int) (entry : CacheEntry) : Bool :=
  decide (now - entry.cached_at < CACHE_TTL_SECONDS)

/-- `_load_cache` (content_generator.py lines 28–36, and its copies):
returns `{}` when the file is missing, and `{}` when `json.loads` raises
(`JSONDecodeError`/`OSError`, both modelled by `decode` returning `none`).
The file state is `none` when `CACHE_FILE.exists()` is false. -/
def load_cache (decode : List Char → Option Store) (file : Option (List Char)) : Store :=
  match file with
  | none => []
  | some txt =>
    match decode txt with
    | some cache => cache
    | none => []

/-! ## Item details (content_generator.py, models/schemas.py)

`ItemSummary`, `Example` and `ItemDetail` are the pydantic models of
`backend/models/schemas.py`. pydantic construction that can raise a
`ValidationError` is modelled by `Option`; the `Field(min_length/max_length)`
constraints of `ItemDetail` become the `validItemDetail` check. -/

inductive Category where
  | guardrails : Category
  | evals : Category
deriving DecidableEq

def Category.value : Category → String
  | .guardrails => "guardrails"
  | .evals => "evals"

structure ItemSummary where
  id : String
  title : String
  short_description : String
  category : Category
  tags : List String

structure Example where
  title : String
  scenario : String
  code_snippet : String
deriving DecidableEq

structure ItemDetail where
  id : String
  title : String
  category : Category
  overview : String
  why_it_matters : String
  implementation_steps : List String
  examples : List Example
  risks_and_pitfalls : List String
  metrics_or_checks : List String
deriving DecidableEq

/-- The `Field` constraints on `ItemDetail` (schemas.py lines 41–61):
`implementation_steps` 5–8, `risks_and_pitfalls` 3–6, `metrics_or_checks` 3–6. -/
def validItemDetail (d : ItemDetail) : Bool :=
  decide (5 ≤ d.implementation_steps.length) && decide (d.implementation_steps.length ≤ 8) &&
  decide (3 ≤ d.risks_and_pitfalls.length) && decide (d.risks_and_pitfalls.length ≤ 6) &&
  decide (3 ≤ d.metrics_or_checks.length) && decide (d.metrics_or_checks.length ≤ 6)

/-- pydantic coercion of a JSON value to `str` (v2 does not coerce numbers). -/
def asStr : JVal → Option String
  | .str s => some s
  | _ => none

/-- pydantic coercion of a JSON value to `list[str]`. -/
def asStrList : JVal → Option (List String)
  | .arr xs => mapOpt asStr xs
  | _ => none

/-- `payload.get(key, default)` followed by pydantic `str` validation. -/
def strField (kvs : List (String × JVal)) (key : String) (dflt : String) : Option String :=
  match alookup kvs key with
  | none => some dflt
  | some v => asStr v

/-- `payload.get(key, default)` followed by pydantic `list[str]` validation. -/
def strListField (kvs : List (String × JVal)) (key : String) (dflt : List String) :
    Option (List String) :=
  match alookup kvs key with
  | none => some dflt
  | some v => asStrList v

/-- `Example(**ex)`: `title` and `scenario` required, `code_snippet` defaults to `""`. -/
def parseExample (j : JVal) : Option Example :=
  match j with
  | .obj kvs =>
    match alookup kvs "title", alookup kvs "scenario" with
    | some (.str t), some (.str s) =>
      match alookup kvs "code_snippet" with
      | none => some ⟨t, s, ""⟩
      | some (.str c) => some ⟨t, s, c⟩
      | some _ => none
    | _, _ => none
  | _ => none

/-- `[Example(**ex) for ex in payload.get("examples", [])]`. -/
def examplesField (kvs : List (String × JVal)) : Option (List Example) :=
  match alookup kvs "examples" with
  | none => some []
  | some (.arr xs) => mapOpt parseExample xs
  | some _ => none

def defaultSteps : List String := ["Step 1", "Step 2", "Step 3", "Step 4", "Step 5"]

def defaultRisks : List String := ["Risk 1", "Risk 2", "Risk 3"]

def defaultMetrics : List String := ["Metric 1", "Metric 2", "Metric 3"]

/-- `_entry_to_detail` (content_generator.py lines 125–140): build an
`ItemDetail` from the raw payload, substituting the named defaults for
missing keys; `none` models a pydantic `ValidationError` (or the
`AttributeError` when the payload is not a dict). -/
def entry_to_detail (payload : JVal) (item : ItemSummary) : Option ItemDetail :=
  match payload with
  | .obj kvs =>
    match strField kvs "overview" "",
          strField kvs "why_it_matters" "",
          strListField kvs "implementation_steps" defaultSteps,
          examplesField kvs,
          strListField kvs "risks_and_pitfalls" defaultRisks,
          strListField kvs "metrics_or_checks" defaultMetrics with
    | some ov, some why, some steps, some exs, some risks, some mets =>
      if (decide (5 ≤ steps.length) && decide (steps.length ≤ 8) &&
          decide (3 ≤ risks.length) && decide (risks.length ≤ 6) &&
          decide (3 ≤ mets.length) && decide (mets.length ≤ 6)) = true then
        some ⟨item.id, item.title, item.category, ov, why, steps, exs, risks, mets⟩
      else none
    | _, _, _, _, _, _ => none
  | _ => none

/-- `_fallback_payload` (content_generator.py lines 143–166): the
deterministic payload used when the LLM response fails strict JSON parsing. -/
def fallback_payload (item : ItemSummary) : JVal :=
  .obj [
    ("overview", .str (item.title ++ ": " ++ item.short_description)),
    ("why_it_matters", .str "This is a critical component of agentic security that helps protect AI systems."),
    ("implementation_steps", .arr [
      .str "Identify the scope and requirements",
      .str "Design the architecture and integration points",
      .str "Implement core logic",
      .str "Add configuration and policy controls",
      .str "Write unit and integration tests"]),
    ("examples", .arr []),
    ("risks_and_pitfalls", .arr [
      .str "Incomplete coverage may leave gaps",
      .str "Over-aggressive rules can block legitimate use",
      .str "Maintenance burden increases with complexity"]),
    ("metrics_or_checks", .arr [
      .str "Coverage percentage of protected surfaces",
      .str "False-positive rate",
      .str "Mean time to detection"])]

/-- `cache_key = f"{item.category.value}:{item.id}"` (content_generator.py line 85). -/
def item_cache_key (item : ItemSummary) : String :=
  item.category.value ++ ":" ++ item.id

/-- The observable process state around one `generate_item_detail` request:
the on-disk store and how many upstream chat-completion calls were issued. -/
structure GenState where
  cache : Store
  llmCalls : Nat

/-- Outcome of one `generate_item_detail` request: a returned `ItemDetail`,
a pydantic `ValidationError` escaping from assembly, or the upstream OpenAI
call raising (network/auth/rate-limit — not caught by the service). -/
inductive ItemOutcome where
  | success (d : ItemDetail) : ItemOutcome
  | validationError : ItemOutcome
  | upstreamError : ItemOutcome

def outcomeOf : Option ItemDetail → ItemOutcome
  | some d => .success d
  | none => .validationError

/-- `generate_item_detail` (content_generator.py lines 79–120).

State passing makes the I/O explicit: `st.cache` is the store file contents,
`llm` is the behaviour of the single `chat_completion` call the body can make
(`some raw` — the call returns `raw`; `none` — the call raises, nothing after
it runs), `decode` is `json.loads`, and `now` is `time.time()`.

The body: derive the cache key; on a fresh hit return the assembled entity
from the cached data without touching the store or the client; otherwise call
the client, clean and parse the response (falling back on decode failure),
write the entry with `cached_at = now` over the full store, then assemble. -/
def generate_item_detail (decode : List Char → Option JVal) (st : GenState)
    (item : ItemSummary) (now : Int) (llm : Option (List Char)) :
    ItemOutcome × GenState :=
  let key := item_cache_key item
  let hit : Option JVal :=
    match alookup st.cache key with
    | some entry => if is_entry_valid now entry then some entry.data else none
    | none => none
  match hit with
  | some data => (outcomeOf (entry_to_detail data item), st)
  | none =>
    match llm with
    | none => (.upstreamError, ⟨st.cache, st.llmCalls + 1⟩)
    | some raw =>
      let payload := parseResponse decode (fallback_payload item) raw
      let cache' := aset st.cache key ⟨now, payload⟩
      (outcomeOf (entry_to_detail payload item), ⟨cache', st.llmCalls + 1⟩)

/-! ## Career details (career_generator.py, models/schemas.py) -/

structure Profession where
  id : String
  title : String
  short_description : String
  icon_emoji : String
  tags : List String

structure CareerPathStage where
  stage : String
  years : String
  description : String
deriving DecidableEq

structure CareerDetail where
  id : String
  title : String
  overview : String
  salary_range : String
  key_skills : List String
  education_requirements : String
  career_path : List CareerPathStage
  day_in_the_life : String
  pros : List String
  cons : List String
  future_outlook : String
  image_url : String
deriving DecidableEq

/-- The `Field` constraints on `CareerDetail` (schemas.py lines 146–158):
`key_skills` 5–10, `pros` 3–7, `cons` 3–6. `career_path` carries no length
constraint. -/
def validCareerDetail (d : CareerDetail) : Bool :=
  decide (5 ≤ d.key_skills.length) && decide (d.key_skills.length ≤ 10) &&
  decide (3 ≤ d.pros.length) && decide (d.pros.length ≤ 7) &&
  decide (3 ≤ d.cons.length) && decide (d.cons.length ≤ 6)

/-- `CareerPathStage(**stage)`: `stage`, `years`, `description` all required. -/
def parseStage (j : JVal) : Option CareerPathStage :=
  match j with
  | .obj kvs =>
    match alookup kvs "stage", alookup kvs "years", alookup kvs "description" with
    | some (.str a), some (.str b), some (.str c) => some ⟨a, b, c⟩
    | _, _, _ => none
  | _ => none

/-- The literal default passed to `payload.get("career_path", [...])`
(career_generator.py lines 193–198). -/
def defaultStageDicts : List JVal := [
  .obj [("stage", .str "Entry Level"), ("years", .str "0-2 years"),
        ("description", .str "Starting position")],
  .obj [("stage", .str "Mid Level"), ("years", .str "3-5 years"),
        ("description", .str "Growing responsibilities")],
  .obj [("stage", .str "Senior Level"), ("years", .str "6-10 years"),
        ("description", .str "Leadership and mentoring")],
  .obj [("stage", .str "Expert / Director"), ("years", .str "10+ years"),
        ("description", .str "Strategic direction")]]

/-- The 4-stage generic career path those dicts assemble to. -/
def defaultCareerStages : List CareerPathStage := [
  ⟨"Entry Level", "0-2 years", "Starting position"⟩,
  ⟨"Mid Level", "3-5 years", "Growing responsibilities"⟩,
  ⟨"Senior Level", "6-10 years", "Leadership and mentoring"⟩,
  ⟨"Expert / Director", "10+ years", "Strategic direction"⟩]

/-- `[CareerPathStage(**stage) for stage in payload.get("career_path", default)]`:
note that `.get` substitutes the default only when the key is absent; a present
empty list passes through the comprehension unchanged. -/
def stagesField (kvs : List (String × JVal)) : Option (List CareerPathStage) :=
  match alookup kvs "career_path" with
  | none => mapOpt parseStage defaultStageDicts
  | some (.arr xs) => mapOpt parseStage xs
  | some _ => none

def defaultSkills : List String := ["Skill 1", "Skill 2", "Skill 3", "Skill 4", "Skill 5"]

def defaultPros : List String := ["Great career growth", "Competitive salary", "Meaningful work"]

def defaultConsList : List String :=
  ["Can be stressful", "Requires continuous learning", "Work-life balance challenges"]

/-- `_payload_to_detail` (career_generator.py lines 179–205): assemble a
`CareerDetail` from the raw payload, the profession and the externally
supplied image URL. -/
def payload_to_detail (payload : JVal) (prof : Profession) (imageUrl : String) :
    Option CareerDetail :=
  match payload with
  | .obj kvs =>
    match strField kvs "overview" prof.short_description,
          strField kvs "salary_range" "Varies by experience and location",
          strListField kvs "key_skills" defaultSkills,
          strField kvs "education_requirements" "Varies by specialization.",
          stagesField kvs,
          strField kvs "day_in_the_life" "A typical day involves a variety of tasks and responsibilities.",
          strListField kvs "pros" defaultPros,
          strListField kvs "cons" defaultConsList,
          strField kvs "future_outlook" "The outlook for this profession remains positive." with
    | some ov, some sal, some sk, some ed, some cp, some day, some pr, some co, some fo =>
      if (decide (5 ≤ sk.length) && decide (sk.length ≤ 10) &&
          decide (3 ≤ pr.length) && decide (pr.length ≤ 7) &&
          decide (3 ≤ co.length) && decide (co.length ≤ 6)) = true then
        some ⟨prof.id, prof.title, ov, sal, sk, ed, cp, day, pr, co, fo, imageUrl⟩
      else none
    | _, _, _, _, _, _, _, _, _ => none
  | _ => none

/-! ## Region normalization (career_generator.py lines 28–68, 126–139) -/

/-- The keys of the `REGION_CONTEXT` dict. -/
def REGION_KEYS : List String := ["usa", "india"]

def DEFAULT_REGION : String := "usa"

/-- Python `str.lower()` (character-wise lowercasing). -/
def pyLower (s : String) : String := ⟨s.data.map Char.toLower⟩

/-- The region normalization at the top of `generate_career_detail`:
`region = region.lower() if region else DEFAULT_REGION` followed by
`if region not in REGION_CONTEXT: region = DEFAULT_REGION`. -/
def normalize_region (region : String) : String :=
  let r := if region = "" then DEFAULT_REGION else pyLower region
  if r ∈ REGION_KEYS then r else DEFAULT_REGION

/-- `cache_key = f"{profession.id}__{region}"` after normalization
(career_generator.py line 139). -/
def career_cache_key (professionId : String) (region : String) : String :=
  professionId ++ "__" ++ normalize_region region

/-! ## Articles (article_generator.py) -/

/-- `get_article` (article_generator.py lines 190–205): look the id up in
the articles store; missing → `None`; expired (`now - cached_at > TTL`) →
delete the key, rewrite the store file, return `None`; otherwise return the
stored data. (Re-validation of the stored data into the `Article` model is
elided: the claims about this function concern the store behaviour.) -/
def get_article (articles : Store) (articleId : String) (now : Int) :
    Option JVal × Store :=
  match alookup articles articleId with
  | none => (none, articles)
  | some entry =>
    if now - entry.cached_at > CACHE_TTL_SECONDS then
      (none, aerase articles articleId)
    else
      (some entry.data, articles)

/-! ## The chat-completion call boundary (openai_client.py, article_generator.py)

Python keyword-argument binding for the signature
`def chat_completion(prompt, system="", max_tokens=2048)`: a call binds iff
every supplied keyword names a parameter and every parameter without a
default is supplied. -/

/-- Parameter names of `chat_completion` (openai_client.py lines 15–17). -/
def chatCompletionParams : List String := ["prompt", "system", "max_tokens"]

/-- Parameter names of `chat_completion` that have no default value. -/
def chatCompletionRequired : List String := ["prompt"]

/-- Keywords supplied by the `generate_article` call site
(article_generator.py lines 121–126). -/
def articleCallKeywords : List String := ["prompt", "system", "max_tokens", "model"]

/-- Keywords supplied by the `generate_career_detail` call site
(career_generator.py lines 150–154). -/
def careerCallKeywords : List String := ["prompt", "system", "max_tokens"]

/-- A Python keyword call binds without a `TypeError`. -/
def callBinds (params required kwargs : List String) : Bool :=
  kwargs.all (fun k => params.contains k) && required.all (fun k => kwargs.contains k)

/-- Module-level names defined in `backend/config.py` (lines 15–32). -/
def configModuleNames : List String :=
  ["OPENAI_API_KEY", "OPENAI_MODEL_NAME", "ADMIN_PASSWORD", "ADMIN_TOKEN_SECRET",
   "HOST", "PORT", "CORS_ORIGINS"]

/-! ## Well-typedness of payloads

A payload key is well-typed when the value it carries passes the pydantic
validation that `ItemDetail` / `CareerDetail` applies to that field,
including the declared length bounds. Absent keys are always acceptable. -/

def okStrField (kvs : List (String × JVal)) (key : String) : Bool :=
  match alookup kvs key with
  | none => true
  | some v => (asStr v).isSome

def okStrListField (kvs : List (String × JVal)) (key : String) (lo hi : Nat) : Bool :=
  match alookup kvs key with
  | none => true
  | some v =>
    match asStrList v with
    | some xs => decide (lo ≤ xs.length) && decide (xs.length ≤ hi)
    | none => false

def okExamplesField (kvs : List (String × JVal)) : Bool :=
  match alookup kvs "examples" with
  | none => true
  | some (.arr xs) => xs.all (fun x => (parseExample x).isSome)
  | some _ => false

def wellTypedItemPayload (kvs : List (String × JVal)) : Bool :=
  okStrField kvs "overview" && okStrField kvs "why_it_matters" &&
  okStrListField kvs "implementation_steps" 5 8 && okExamplesField kvs &&
  okStrListField kvs "risks_and_pitfalls" 3 6 && okStrListField kvs "metrics_or_checks" 3 6

def okStagesField (kvs : List (String × JVal)) : Bool :=
  match alookup kvs "career_path" with
  | none => true
  | some (.arr xs) => xs.all (fun x => (parseStage x).isSome)
  | some _ => false

def wellTypedCareerPayload (kvs : List (String × JVal)) : Bool :=
  okStrField kvs "overview" && okStrField kvs "salary_range" &&
  okStrListField kvs "key_skills" 5 10 && okStrField kvs "education_requirements" &&
  okStagesField kvs && okStrField kvs "day_in_the_life" &&
  okStrListField kvs "pros" 3 7 && okStrListField kvs "cons" 3 6 &&
  okStrField kvs "future_outlook"

/-! ## Concrete instances used to exercise the theorems -/

def wItem : ItemSummary :=
  ⟨"prompt-injection-defense", "Prompt Injection Defense",
   "Detect and block prompt injection attempts.", .guardrails, ["security"]⟩

def wProfession : Profession :=
  ⟨"software-engineer", "Software Engineer",
   "Designs and builds software systems.", "", ["tech"]⟩

/-- A store holding one entry written at time 0 for `wItem`'s cache key. -/
def wStaleStore : Store := [("guardrails:prompt-injection-defense", ⟨0, .obj []⟩)]


/-- A payload carrying only an overview, used to exercise the assemblers. -/
def w7kvs : List (String × JVal) := [("overview", JVal.str "Short overview.")]

/-- A payload whose `career_path` key is present but maps to an empty list. -/
def emptyPathPayload : JVal := .obj [("career_path", .arr [])]

/-! ## Helper lemmas -/

theorem alookup_aset_self {α : Type} (l : List (String × α)) (key : String) (v : α) :
    alookup (aset l key v) key = some v := by
  induction l with
  | nil => simp [aset, alookup]
  | cons hd tl ih =>
    obtain ⟨k, w⟩ := hd
    by_cases hk : k = key
    · simp [aset, hk, alookup]
    · simp [aset, hk, alookup, ih]

theorem mapOpt_isSome {α β : Type} (f : α → Option β) (xs : List α)
    (h : xs.all (fun x => (f x).isSome) = true) : ∃ ys, mapOpt f xs = some ys := by
  induction xs with
  | nil => exact ⟨[], rfl⟩
  | cons x xs ih =>
    simp only [List.all_cons, Bool.and_eq_true] at h
    obtain ⟨hx, hxs⟩ := h
    obtain ⟨y, hy⟩ := Option.isSome_iff_exists.mp hx
    obtain ⟨ys, hys⟩ := ih hxs
    exact ⟨y :: ys, by simp [mapOpt, hy, hys]⟩

theorem splitLines_ne_nil (s : List Char) : splitLines s ≠ [] := by
  cases s with
  | nil => simp [splitLines]
  | cons c rest =>
    simp only [splitLines]
    cases h : splitLines rest with
    | nil => simp
    | cons l ls => by_cases hc : c = '\n' <;> simp [hc]

theorem splitLines_append_cons (l : List Char) (s : List Char) (x : List Char)
    (xs : List (List Char)) (hl : '\n' ∉ l) (hs : splitLines s = x :: xs) :
    splitLines (l ++ s) = (l ++ x) :: xs := by
  induction l with
  | nil => simpa using hs
  | cons c cs ih =>
    have hc : c ≠ '\n' := fun h => hl (h ▸ List.mem_cons_self c cs)
    have hcs : '\n' ∉ cs := fun h => hl (List.mem_cons_of_mem c h)
    rw [List.cons_append]
    simp only [splitLines]
    rw [ih hcs]
    simp [hc]

theorem splitLines_no_nl (l : List Char) (hl : '\n' ∉ l) : splitLines l = [l] := by
  have := splitLines_append_cons l [] [] [] hl (by simp [splitLines])
  simpa using this

theorem splitLines_joinLines (ls : List (List Char)) (hne : ls ≠ [])
    (h : ∀ l ∈ ls, '\n' ∉ l) : splitLines (joinLines ls) = ls := by
  induction ls with
  | nil => exact absurd rfl hne
  | cons l rest ih =>
    cases rest with
    | nil =>
      exact splitLines_no_nl l (h l (List.mem_cons_self l []))
    | cons l' rest' =>
      have hrest : splitLines (joinLines (l' :: rest')) = l' :: rest' :=
        ih (by simp) (fun x hx => h x (List.mem_cons_of_mem l hx))
      have hnl : splitLines ('\n' :: joinLines (l' :: rest')) = [] :: l' :: rest' := by
        simp [splitLines, hrest]
      have hjoin : joinLines (l :: l' :: rest') = l ++ '\n' :: joinLines (l' :: rest') := rfl
      rw [hjoin, splitLines_append_cons l _ [] (l' :: rest')
        (h l (List.mem_cons_self l _)) hnl]
      simp

theorem pyStrip_eq_self (s : List Char) (a b : Char) (t u : List Char)
    (h1 : s = a :: t) (h2 : s.reverse = b :: u)
    (ha : isPyWS a = false) (hb : isPyWS b = false) : pyStrip s = s := by
  have hfront : s.dropWhile isPyWS = s := by
    rw [h1]; exact List.dropWhile_cons_of_neg (by simp [ha])
  have hback : s.reverse.dropWhile isPyWS = s.reverse := by
    rw [h2]; exact List.dropWhile_cons_of_neg (by simp [hb])
  unfold pyStrip
  rw [hfront, hback, List.reverse_reverse]

theorem startsWithChars_head (p : Char) (ps s : List Char)
    (h : startsWithChars (p :: ps) s = true) : ∃ t, s = p :: t := by
  cases s with
  | nil => simp [startsWithChars] at h
  | cons c cs =>
    simp only [startsWithChars, Bool.and_eq_true, decide_eq_true_eq] at h
    exact ⟨cs, by rw [h.1]⟩

theorem startsWithChars_append (pat s t : List Char)
    (h : startsWithChars pat s = true) : startsWithChars pat (s ++ t) = true := by
  induction pat generalizing s with
  | nil => simp [startsWithChars]
  | cons p ps ih =>
    cases s with
    | nil => simp [startsWithChars] at h
    | cons c cs =>
      simp only [startsWithChars, Bool.and_eq_true] at h
      simp only [List.cons_append, startsWithChars, Bool.and_eq_true]
      exact ⟨h.1, ih cs h.2⟩

theorem joinLines_cons (x : List Char) (rest : List (List Char)) (h : rest ≠ []) :
    joinLines (x :: rest) = x ++ '\n' :: joinLines rest := by
  cases rest with
  | nil => exact absurd rfl h
  | cons y ys => rfl

theorem joinLines_append_single (ls : List (List Char)) (l : List Char) (h : ls ≠ []) :
    joinLines (ls ++ [l]) = joinLines ls ++ '\n' :: l := by
  induction ls with
  | nil => exact absurd rfl h
  | cons x xs ih =>
    cases xs with
    | nil => rfl
    | cons y ys =>
      have : joinLines ((y :: ys) ++ [l]) = joinLines (y :: ys) ++ '\n' :: l :=
        ih (by simp)
      calc joinLines ((x :: y :: ys) ++ [l])
          = x ++ '\n' :: joinLines ((y :: ys) ++ [l]) := rfl
        _ = x ++ '\n' :: (joinLines (y :: ys) ++ '\n' :: l) := by rw [this]
        _ = joinLines (x :: y :: ys) ++ '\n' :: l := by
            rw [joinLines_cons x (y :: ys) (by simp)]; simp

/-! ## Claim theorems -/

/-- C5: an entry written one second past the 10-day TTL
(`cached_at = now - TTL - 1`) fails `_is_entry_valid`, and an entry one
second inside the window (`cached_at = now - TTL + 1`) passes it, where
`CACHE_TTL_SECONDS = 10 * 24 * 60 * 60`. -/
theorem c5_ttl_boundary (now : Int) (d : JVal) :
    is_entry_valid now ⟨now - CACHE_TTL_SECONDS - 1, d⟩ = false ∧
    is_entry_valid now ⟨now - CACHE_TTL_SECONDS + 1, d⟩ = true ∧
    CACHE_TTL_SECONDS = 10 * 24 * 60 * 60 := by
  refine ⟨?_, ?_, rfl⟩ <;> simp [is_entry_valid] <;> omega

/-- C9: `_load_cache` returns the empty mapping both when the backing file
does not exist and when its content fails to parse as JSON; being a total
function into `Store`, it never propagates an exception. -/
theorem c9_store_resilience :
    (∀ decode : List Char → Option Store, load_cache decode none = []) ∧
    (∀ (decode : List Char → Option Store) (txt : List Char),
      decode txt = none → load_cache decode (some txt) = []) := by
  constructor
  · intro decode; rfl
  · intro decode txt h; simp [load_cache, h]

/-- C9 witness: a missing file and a file whose content does not decode both
load as the empty store. -/
theorem c9_store_resilience_witness :
    load_cache (fun _ => none) none = [] ∧
    load_cache (fun _ => none) (some "this is not json".data) = [] :=
  ⟨c9_store_resilience.1 (fun _ => none),
   c9_store_resilience.2 (fun _ => none) "this is not json".data rfl⟩

/-- C2: the claim that the four-keyword call in `generate_article`
(`prompt`, `system`, `max_tokens`, `model`) is well-formed is contradicted by
the code: `chat_completion` accepts only `prompt`, `system`, `max_tokens`,
so the call does not bind (Python raises `TypeError`), and `backend.config`
does not even define `OPENAI_ARTICLE_MODEL`, so importing the module raises.
The three-keyword `generate_career_detail` call does bind. -/
theorem c2_article_call_mismatch :
    callBinds chatCompletionParams chatCompletionRequired articleCallKeywords = false ∧
    configModuleNames.contains "OPENAI_ARTICLE_MODEL" = false ∧
    callBinds chatCompletionParams chatCompletionRequired careerCallKeywords = true := by
  decide

/-- C8: the fallback payload depends only on the source item — parsing two
different undecodable texts for the same item yields identical payloads,
both equal to `_fallback_payload item`. -/
theorem c8_fallback_determinism (decode : List Char → Option JVal)
    (item : ItemSummary) (raw₁ raw₂ : List Char)
    (h₁ : decode (cleanText raw₁) = none) (h₂ : decode (cleanText raw₂) = none) :
    parseResponse decode (fallback_payload item) raw₁ =
      parseResponse decode (fallback_payload item) raw₂ ∧
    parseResponse decode (fallback_payload item) raw₁ = fallback_payload item := by
  simp [parseResponse, h₁, h₂]

/-- C8 witness: two different non-JSON texts for `wItem` produce the same
fallback payload. -/
theorem c8_fallback_determinism_witness :
    parseResponse (fun _ => none) (fallback_payload wItem) "alas, here is prose".data =
      parseResponse (fun _ => none) (fallback_payload wItem) "totally different garbage".data ∧
    parseResponse (fun _ => none) (fallback_payload wItem) "alas, here is prose".data =
      fallback_payload wItem :=
  c8_fallback_determinism (fun _ => none) wItem
    "alas, here is prose".data "totally different garbage".data rfl rfl

/-- C10: the region used by `generate_career_detail` is the lower-cased
input when that is `usa` or `india`, and `usa` in every other case
(including the empty string); hence every career cache key ends in
`__usa` or `__india`. -/
theorem c10_region_normalization (pid region : String) :
    (normalize_region region = "usa" ∨ normalize_region region = "india") ∧
    ((pyLower region = "usa" ∨ pyLower region = "india") →
      normalize_region region = pyLower region) ∧
    ((pyLower region ≠ "usa" ∧ pyLower region ≠ "india") →
      normalize_region region = "usa") ∧
    (career_cache_key pid region = pid ++ "__usa" ∨
      career_cache_key pid region = pid ++ "__india") := by
  have hkey : ∀ r : String, career_cache_key pid r = pid ++ "__" ++ normalize_region r :=
    fun _ => rfl
  have husa : pid ++ "__" ++ "usa" = pid ++ "__usa" := by
    rw [String.append_assoc]
    exact congrArg (pid ++ ·) (by decide : "__" ++ "usa" = "__usa")
  have hindia : pid ++ "__" ++ "india" = pid ++ "__india" := by
    rw [String.append_assoc]
    exact congrArg (pid ++ ·) (by decide : "__" ++ "india" = "__india")
  by_cases hz : region = ""
  · subst hz
    have hn : normalize_region "" = "usa" := by
      simp [normalize_region, DEFAULT_REGION, REGION_KEYS]
    refine ⟨Or.inl hn, ?_, fun _ => hn, Or.inl (by rw [hkey, hn, husa])⟩
    intro h
    have hlow : pyLower "" = "" := rfl
    rw [hlow] at h
    rcases h with h | h
    · exact absurd h (by decide)
    · exact absurd h (by decide)
  · have hr : normalize_region region =
        if pyLower region ∈ REGION_KEYS then pyLower region else "usa" := by
      simp [normalize_region, hz, DEFAULT_REGION]
    by_cases hmem : pyLower region ∈ REGION_KEYS
    · have hcases : pyLower region = "usa" ∨ pyLower region = "india" := by
        simpa [REGION_KEYS] using hmem
      have hn : normalize_region region = pyLower region := by rw [hr, if_pos hmem]
      refine ⟨by rw [hn]; exact hcases, fun _ => hn, ?_, ?_⟩
      · rintro ⟨h1, h2⟩
        rcases hcases with h | h
        · exact absurd h h1
        · exact absurd h h2
      · rcases hcases with h | h
        · exact Or.inl (by rw [hkey, hn, h, husa])
        · exact Or.inr (by rw [hkey, hn, h, hindia])
    · have hcases : pyLower region ≠ "usa" ∧ pyLower region ≠ "india" := by
        constructor <;> intro h <;> exact hmem (by simp [REGION_KEYS, h])
      have hn : normalize_region region = "usa" := by rw [hr, if_neg hmem]
      refine ⟨Or.inl hn, ?_, fun _ => hn, Or.inl (by rw [hkey, hn, husa])⟩
      intro h
      rcases h with h | h
      · exact absurd h hcases.1
      · exact absurd h hcases.2

/-- C10 witness: mixed-case known regions normalize to themselves lowered,
an unknown region falls back to `usa`, and the cache keys have the claimed
shape. -/
theorem c10_region_normalization_witness :
    normalize_region "India" = "india" ∧
    normalize_region "Mars" = "usa" ∧
    career_cache_key "doctor" "India" = "doctor" ++ "__india" := by
  have hIn := (c10_region_normalization "doctor" "India").2.1 (Or.inr (by decide))
  have hMars := (c10_region_normalization "doctor" "Mars").2.2.1 ⟨by decide, by decide⟩
  have hkey := (c10_region_normalization "doctor" "India").2.2.2
  refine ⟨hIn.trans (by decide), hMars, ?_⟩
  rcases hkey with h | h
  · exact absurd h (by decide)
  · exact h

/-- C1: starting from a store with no entry for the item's cache key, the
first `generate_item_detail` issues exactly one upstream call and writes the
entry; a second call in immediate succession (any `now₂` with
`now₂ - now₁ < TTL`) issues no further upstream call, leaves the store
untouched, and returns an outcome identical to the first call's. -/
theorem c1_idempotent_cache_hit (decode : List Char → Option JVal) (st : GenState)
    (item : ItemSummary) (now₁ now₂ : Int) (raw₁ raw₂ : List Char)
    (hmiss : alookup st.cache (item_cache_key item) = none)
    (hfresh : now₂ - now₁ < CACHE_TTL_SECONDS) :
    (generate_item_detail decode st item now₁ (some raw₁)).2.llmCalls = st.llmCalls + 1 ∧
    (generate_item_detail decode
        (generate_item_detail decode st item now₁ (some raw₁)).2 item now₂ (some raw₂)).2 =
      (generate_item_detail decode st item now₁ (some raw₁)).2 ∧
    (generate_item_detail decode
        (generate_item_detail decode st item now₁ (some raw₁)).2 item now₂ (some raw₂)).1 =
      (generate_item_detail decode st item now₁ (some raw₁)).1 := by
  have h1 : generate_item_detail decode st item now₁ (some raw₁) =
      (outcomeOf (entry_to_detail (parseResponse decode (fallback_payload item) raw₁) item),
       ⟨aset st.cache (item_cache_key item)
          ⟨now₁, parseResponse decode (fallback_payload item) raw₁⟩,
        st.llmCalls + 1⟩) := by
    simp [generate_item_detail, hmiss]
  have hlook : alookup
      (aset st.cache (item_cache_key item)
        ⟨now₁, parseResponse decode (fallback_payload item) raw₁⟩)
      (item_cache_key item) =
      some ⟨now₁, parseResponse decode (fallback_payload item) raw₁⟩ :=
    alookup_aset_self st.cache (item_cache_key item) _
  have hvalid : is_entry_valid now₂
      ⟨now₁, parseResponse decode (fallback_payload item) raw₁⟩ = true := by
    simp only [is_entry_valid, decide_eq_true_eq]
    omega
  have h2 : generate_item_detail decode
      (⟨aset st.cache (item_cache_key item)
          ⟨now₁, parseResponse decode (fallback_payload item) raw₁⟩,
        st.llmCalls + 1⟩ : GenState) item now₂ (some raw₂) =
      (outcomeOf (entry_to_detail (parseResponse decode (fallback_payload item) raw₁) item),
       ⟨aset st.cache (item_cache_key item)
          ⟨now₁, parseResponse decode (fallback_payload item) raw₁⟩,
        st.llmCalls + 1⟩) := by
    simp [generate_item_detail, hlook, hvalid]
  rw [h1]
  exact ⟨rfl, by rw [h2], by rw [h2]⟩

/-- C1 witness: a concrete two-call run — an empty store, `wItem`, calls at
times 1000 and 1001 — makes one upstream call in total and returns the same
outcome twice. -/
theorem c1_idempotent_cache_hit_witness :
    (generate_item_detail (fun _ => none) ⟨[], 0⟩ wItem 1000 (some "no json here".data)).2.llmCalls
      = 0 + 1 ∧
    (generate_item_detail (fun _ => none)
        (generate_item_detail (fun _ => none) ⟨[], 0⟩ wItem 1000
          (some "no json here".data)).2 wItem 1001 (some "second raw".data)).2 =
      (generate_item_detail (fun _ => none) ⟨[], 0⟩ wItem 1000 (some "no json here".data)).2 ∧
    (generate_item_detail (fun _ => none)
        (generate_item_detail (fun _ => none) ⟨[], 0⟩ wItem 1000
          (some "no json here".data)).2 wItem 1001 (some "second raw".data)).1 =
      (generate_item_detail (fun _ => none) ⟨[], 0⟩ wItem 1000 (some "no json here".data)).1 :=
  c1_idempotent_cache_hit (fun _ => none) ⟨[], 0⟩ wItem 1000 1001
    "no json here".data "second raw".data rfl (by decide)

/-- C3 counterexample: in the item-detail flow a read that finds an expired
entry does NOT delete the stale key. Concretely: `wStaleStore` holds the
entry for `wItem` written at time 0, the read happens at `TTL + 5`, and the
upstream call then fails — the function returns the upstream error with the
store unchanged, the stale key still present. -/
theorem c3_no_eviction_on_item_read :
    (generate_item_detail (fun _ => none) ⟨wStaleStore, 0⟩ wItem
        (CACHE_TTL_SECONDS + 5) none).2.cache = wStaleStore ∧
    (generate_item_detail (fun _ => none) ⟨wStaleStore, 0⟩ wItem
        (CACHE_TTL_SECONDS + 5) none).1 = ItemOutcome.upstreamError ∧
    alookup wStaleStore (item_cache_key wItem) = some ⟨0, .obj []⟩ :=
  ⟨rfl, rfl, rfl⟩

/-- C3 amended: lazy eviction on read holds for the article store —
`get_article` deletes an expired key and rewrites the store — but not for
the item-detail flow, whose read leaves an expired entry in place (it is
only overwritten by a later successful regeneration write; if the upstream
call fails the stale entry survives). -/
theorem c3_lazy_eviction_amended :
    (∀ (articles : Store) (articleId : String) (now : Int) (entry : CacheEntry),
      alookup articles articleId = some entry →
      now - entry.cached_at > CACHE_TTL_SECONDS →
      get_article articles articleId now = (none, aerase articles articleId)) ∧
    (∀ (decode : List Char → Option JVal) (st : GenState) (item : ItemSummary)
        (now : Int) (entry : CacheEntry),
      alookup st.cache (item_cache_key item) = some entry →
      is_entry_valid now entry = false →
      (generate_item_detail decode st item now none).1 = ItemOutcome.upstreamError ∧
      (generate_item_detail decode st item now none).2.cache = st.cache) := by
  constructor
  · intro articles articleId now entry hfound hexp
    simp [get_article, hfound, hexp]
  · intro decode st item now entry hfound hexp
    constructor <;> simp [generate_item_detail, hfound, hexp]

/-- C3 amended witness: at time `TTL + 5` the article store drops the
expired entry while the item flow keeps it. -/
theorem c3_lazy_eviction_amended_witness :
    get_article wStaleStore "guardrails:prompt-injection-defense" (CACHE_TTL_SECONDS + 5) =
      (none, aerase wStaleStore "guardrails:prompt-injection-defense") ∧
    (generate_item_detail (fun _ => none) ⟨wStaleStore, 7⟩ wItem
        (CACHE_TTL_SECONDS + 5) none).1 = ItemOutcome.upstreamError ∧
    (generate_item_detail (fun _ => none) ⟨wStaleStore, 7⟩ wItem
        (CACHE_TTL_SECONDS + 5) none).2.cache = wStaleStore :=
  ⟨c3_lazy_eviction_amended.1 wStaleStore "guardrails:prompt-injection-defense"
      (CACHE_TTL_SECONDS + 5) ⟨0, .obj []⟩ rfl (by decide),
   (c3_lazy_eviction_amended.2 (fun _ => none) ⟨wStaleStore, 7⟩ wItem
      (CACHE_TTL_SECONDS + 5) ⟨0, .obj []⟩ rfl (by decide)).1,
   (c3_lazy_eviction_amended.2 (fun _ => none) ⟨wStaleStore, 7⟩ wItem
      (CACHE_TTL_SECONDS + 5) ⟨0, .obj []⟩ rfl (by decide)).2⟩

/-! ### Field-extraction lemmas for the typed assemblers -/

theorem strField_ok (kvs : List (String × JVal)) (key dflt : String)
    (h : okStrField kvs key = true) :
    ∃ s, strField kvs key dflt = some s ∧ (alookup kvs key = none → s = dflt) := by
  cases hl : alookup kvs key with
  | none => exact ⟨dflt, by simp [strField, hl], fun _ => rfl⟩
  | some v =>
    simp only [okStrField, hl] at h
    obtain ⟨s, hs⟩ := Option.isSome_iff_exists.mp h
    exact ⟨s, by simp [strField, hl, hs], fun hk => Option.noConfusion hk⟩

theorem strListField_ok (kvs : List (String × JVal)) (key : String)
    (dflt : List String) (lo hi : Nat) (h : okStrListField kvs key lo hi = true)
    (hlo : lo ≤ dflt.length) (hhi : dflt.length ≤ hi) :
    ∃ xs, strListField kvs key dflt = some xs ∧ lo ≤ xs.length ∧ xs.length ≤ hi ∧
      (alookup kvs key = none → xs = dflt) := by
  cases hl : alookup kvs key with
  | none => exact ⟨dflt, by simp [strListField, hl], hlo, hhi, fun _ => rfl⟩
  | some v =>
    simp only [okStrListField, hl] at h
    cases hs : asStrList v with
    | none => rw [hs] at h; exact absurd h (by simp)
    | some xs =>
      rw [hs] at h
      simp only [Bool.and_eq_true, decide_eq_true_eq] at h
      exact ⟨xs, by simp [strListField, hl, hs], h.1, h.2,
        fun hk => Option.noConfusion hk⟩

theorem examplesField_ok (kvs : List (String × JVal)) (h : okExamplesField kvs = true) :
    ∃ exs, examplesField kvs = some exs ∧ (alookup kvs "examples" = none → exs = []) := by
  cases hl : alookup kvs "examples" with
  | none => exact ⟨[], by simp [examplesField, hl], fun _ => rfl⟩
  | some v =>
    cases v <;> simp only [okExamplesField, hl] at h
    case arr xs =>
      obtain ⟨ys, hys⟩ := mapOpt_isSome parseExample xs h
      exact ⟨ys, by simp [examplesField, hl, hys], fun hk => Option.noConfusion hk⟩
    all_goals exact Bool.noConfusion h

theorem stagesField_ok (kvs : List (String × JVal)) (h : okStagesField kvs = true) :
    ∃ cp, stagesField kvs = some cp ∧
      (alookup kvs "career_path" = none → cp = defaultCareerStages) ∧
      (alookup kvs "career_path" = some (.arr []) → cp = []) := by
  cases hl : alookup kvs "career_path" with
  | none =>
    refine ⟨defaultCareerStages, ?_, fun _ => rfl, fun hk => Option.noConfusion hk⟩
    have hdef : mapOpt parseStage defaultStageDicts = some defaultCareerStages := rfl
    simp [stagesField, hl, hdef]
  | some v =>
    cases v <;> simp only [okStagesField, hl] at h
    case arr xs =>
      obtain ⟨cp, hcp⟩ := mapOpt_isSome parseStage xs h
      refine ⟨cp, by simp [stagesField, hl, hcp], fun hk => Option.noConfusion hk,
        fun hk => ?_⟩
      have harr : JVal.arr xs = JVal.arr [] := Option.some.inj hk
      have hxs : xs = [] := by injection harr
      subst hxs
      have hnil : some ([] : List CareerPathStage) = some cp := by
        rw [← hcp]; rfl
      exact (Option.some.inj hnil).symm
    all_goals exact Bool.noConfusion h

/-- C7: a payload missing any subset of the expected keys, with every
present key well-typed, always assembles: `_entry_to_detail` succeeds, the
result satisfies every `ItemDetail` schema constraint, identity fields come
from the item, and each absent key's field carries its named default. -/
theorem c7_assembler_completeness (kvs : List (String × JVal)) (item : ItemSummary)
    (h : wellTypedItemPayload kvs = true) :
    ∃ d, entry_to_detail (.obj kvs) item = some d ∧ validItemDetail d = true ∧
      d.id = item.id ∧ d.title = item.title ∧ d.category = item.category ∧
      (alookup kvs "overview" = none → d.overview = "") ∧
      (alookup kvs "why_it_matters" = none → d.why_it_matters = "") ∧
      (alookup kvs "implementation_steps" = none → d.implementation_steps = defaultSteps) ∧
      (alookup kvs "examples" = none → d.examples = []) ∧
      (alookup kvs "risks_and_pitfalls" = none → d.risks_and_pitfalls = defaultRisks) ∧
      (alookup kvs "metrics_or_checks" = none → d.metrics_or_checks = defaultMetrics) := by
  simp only [wellTypedItemPayload, Bool.and_eq_true] at h
  obtain ⟨⟨⟨⟨⟨h1, h2⟩, h3⟩, h4⟩, h5⟩, h6⟩ := h
  obtain ⟨ov, hov, hovd⟩ := strField_ok kvs "overview" "" h1
  obtain ⟨why, hwhy, hwhyd⟩ := strField_ok kvs "why_it_matters" "" h2
  obtain ⟨steps, hsteps, hs1, hs2, hstepsd⟩ :=
    strListField_ok kvs "implementation_steps" defaultSteps 5 8 h3 (by decide) (by decide)
  obtain ⟨exs, hexs, hexsd⟩ := examplesField_ok kvs h4
  obtain ⟨risks, hrisks, hr1, hr2, hrisksd⟩ :=
    strListField_ok kvs "risks_and_pitfalls" defaultRisks 3 6 h5 (by decide) (by decide)
  obtain ⟨mets, hmets, hm1, hm2, hmetsd⟩ :=
    strListField_ok kvs "metrics_or_checks" defaultMetrics 3 6 h6 (by decide) (by decide)
  refine ⟨⟨item.id, item.title, item.category, ov, why, steps, exs, risks, mets⟩,
    ?_, ?_, rfl, rfl, rfl, hovd, hwhyd, hstepsd, hexsd, hrisksd, hmetsd⟩
  · simp only [entry_to_detail, hov, hwhy, hsteps, hexs, hrisks, hmets]
    rw [if_pos (by simp [hs1, hs2, hr1, hr2, hm1, hm2])]
  · simp [validItemDetail, hs1, hs2, hr1, hr2, hm1, hm2]

/-- C7 witness: a payload carrying only `overview` assembles into a complete,
schema-valid `ItemDetail` whose other fields are the named defaults. -/
theorem c7_assembler_completeness_witness :
    wellTypedItemPayload w7kvs = true ∧
    (∃ d, entry_to_detail (.obj w7kvs) wItem = some d ∧ validItemDetail d = true ∧
      d.id = wItem.id ∧ d.title = wItem.title ∧ d.category = wItem.category ∧
      (alookup w7kvs "overview" = none → d.overview = "") ∧
      (alookup w7kvs "why_it_matters" = none → d.why_it_matters = "") ∧
      (alookup w7kvs "implementation_steps" = none → d.implementation_steps = defaultSteps) ∧
      (alookup w7kvs "examples" = none → d.examples = []) ∧
      (alookup w7kvs "risks_and_pitfalls" = none → d.risks_and_pitfalls = defaultRisks) ∧
      (alookup w7kvs "metrics_or_checks" = none → d.metrics_or_checks = defaultMetrics)) :=
  ⟨rfl, c7_assembler_completeness w7kvs wItem rfl⟩

/-- C4 counterexample: assembling a career detail from a payload whose
`career_path` key maps to the empty list yields an empty career path, not
the 4-stage generic default the claim promises. -/
theorem c4_career_path_empty_counterexample :
    Option.map CareerDetail.career_path
      (payload_to_detail emptyPathPayload wProfession "") = some [] ∧
    defaultCareerStages ≠ [] :=
  ⟨rfl, by decide⟩

/-- C4 amended: every field of the career detail is taken from the payload
when present and well-typed, otherwise its named default — but the 4-stage
generic career path is substituted only when `career_path` is absent; a
present empty list yields an empty career path. -/
theorem c4_assembler_defaults (kvs : List (String × JVal)) (prof : Profession)
    (img : String) (h : wellTypedCareerPayload kvs = true) :
    ∃ d, payload_to_detail (.obj kvs) prof img = some d ∧ validCareerDetail d = true ∧
      (alookup kvs "career_path" = none → d.career_path = defaultCareerStages) ∧
      (alookup kvs "career_path" = some (.arr []) → d.career_path = []) ∧
      (alookup kvs "overview" = none → d.overview = prof.short_description) ∧
      (alookup kvs "salary_range" = none → d.salary_range = "Varies by experience and location") ∧
      (alookup kvs "key_skills" = none → d.key_skills = defaultSkills) ∧
      (alookup kvs "education_requirements" = none →
        d.education_requirements = "Varies by specialization.") ∧
      (alookup kvs "day_in_the_life" = none →
        d.day_in_the_life = "A typical day involves a variety of tasks and responsibilities.") ∧
      (alookup kvs "pros" = none → d.pros = defaultPros) ∧
      (alookup kvs "cons" = none → d.cons = defaultConsList) ∧
      (alookup kvs "future_outlook" = none →
        d.future_outlook = "The outlook for this profession remains positive.") ∧
      d.id = prof.id ∧ d.title = prof.title ∧ d.image_url = img := by
  simp only [wellTypedCareerPayload, Bool.and_eq_true] at h
  obtain ⟨⟨⟨⟨⟨⟨⟨⟨h1, h2⟩, h3⟩, h4⟩, h5⟩, h6⟩, h7⟩, h8⟩, h9⟩ := h
  obtain ⟨ov, hov, hovd⟩ := strField_ok kvs "overview" prof.short_description h1
  obtain ⟨sal, hsal, hsald⟩ :=
    strField_ok kvs "salary_range" "Varies by experience and location" h2
  obtain ⟨sk, hsk, hk1, hk2, hskd⟩ :=
    strListField_ok kvs "key_skills" defaultSkills 5 10 h3 (by decide) (by decide)
  obtain ⟨ed, hed, hedd⟩ :=
    strField_ok kvs "education_requirements" "Varies by specialization." h4
  obtain ⟨cp, hcp, hcpd, hcpe⟩ := stagesField_ok kvs h5
  obtain ⟨day, hday, hdayd⟩ := strField_ok kvs "day_in_the_life"
    "A typical day involves a variety of tasks and responsibilities." h6
  obtain ⟨pr, hpr, hp1, hp2, hprd⟩ :=
    strListField_ok kvs "pros" defaultPros 3 7 h7 (by decide) (by decide)
  obtain ⟨co, hco, hc1, hc2, hcod⟩ :=
    strListField_ok kvs "cons" defaultConsList 3 6 h8 (by decide) (by decide)
  obtain ⟨fo, hfo, hfod⟩ :=
    strField_ok kvs "future_outlook" "The outlook for this profession remains positive." h9
  refine ⟨⟨prof.id, prof.title, ov, sal, sk, ed, cp, day, pr, co, fo, img⟩,
    ?_, ?_, hcpd, hcpe, hovd, hsald, hskd, hedd, hdayd, hprd, hcod, hfod, rfl, rfl, rfl⟩
  · simp only [payload_to_detail, hov, hsal, hsk, hed, hcp, hday, hpr, hco, hfo]
    rw [if_pos (by simp [hk1, hk2, hp1, hp2, hc1, hc2])]
  · simp [validCareerDetail, hk1, hk2, hp1, hp2, hc1, hc2]

/-- C4 amended witness: the empty payload (every key absent) assembles with
every default in place, including the 4-stage generic career path. -/
theorem c4_assembler_defaults_witness :
    wellTypedCareerPayload [] = true ∧
    (∃ d, payload_to_detail (.obj []) wProfession "img.png" = some d ∧
      validCareerDetail d = true ∧
      (alookup ([] : List (String × JVal)) "career_path" = none → d.career_path = defaultCareerStages) ∧
      (alookup ([] : List (String × JVal)) "career_path" = some (.arr []) → d.career_path = []) ∧
      (alookup ([] : List (String × JVal)) "overview" = none → d.overview = wProfession.short_description) ∧
      (alookup ([] : List (String × JVal)) "salary_range" = none → d.salary_range = "Varies by experience and location") ∧
      (alookup ([] : List (String × JVal)) "key_skills" = none → d.key_skills = defaultSkills) ∧
      (alookup ([] : List (String × JVal)) "education_requirements" = none →
        d.education_requirements = "Varies by specialization.") ∧
      (alookup ([] : List (String × JVal)) "day_in_the_life" = none →
        d.day_in_the_life = "A typical day involves a variety of tasks and responsibilities.") ∧
      (alookup ([] : List (String × JVal)) "pros" = none → d.pros = defaultPros) ∧
      (alookup ([] : List (String × JVal)) "cons" = none → d.cons = defaultConsList) ∧
      (alookup ([] : List (String × JVal)) "future_outlook" = none →
        d.future_outlook = "The outlook for this profession remains positive.") ∧
      d.id = wProfession.id ∧ d.title = wProfession.title ∧ d.image_url = "img.png") :=
  ⟨rfl, c4_assembler_defaults [] wProfession "img.png" rfl⟩

theorem fence_head (s : List Char) (h : startsWithChars fenceChars s = true) :
    ∃ t, s = Char.ofNat 96 :: t := by
  have hfc : fenceChars = Char.ofNat 96 :: Char.ofNat 96 :: Char.ofNat 96 :: [] := by decide
  rw [hfc] at h
  exact startsWithChars_head _ _ s h

/-- C6: the response cleaner/parser — (1) when strict decoding of the
cleaned text fails, the parser returns the fallback instead of propagating
an error; (2) when the stripped text does not begin with a fence marker,
cleaning is exactly whitespace stripping; (3) when the text is a fenced
block, the first and last lines are removed before decoding is attempted. -/
theorem c6_response_parser_behaviour :
    (∀ (decode : List Char → Option JVal) (fb : JVal) (raw : List Char),
      decode (cleanText raw) = none → parseResponse decode fb raw = fb) ∧
    (∀ raw : List Char, startsWithChars fenceChars (pyStrip raw) = false →
      cleanText raw = pyStrip raw) ∧
    (∀ (first : List Char) (mid : List (List Char)),
      startsWithChars fenceChars first = true → '\n' ∉ first →
      (∀ l ∈ mid, '\n' ∉ l) →
      cleanText (joinLines (first :: mid ++ [fenceChars])) = pyStrip (joinLines mid)) := by
  refine ⟨?_, ?_, ?_⟩
  · intro decode fb raw h
    simp [parseResponse, h]
  · intro raw h
    simp [cleanText, h]
  · intro first mid hf hnf hnm
    obtain ⟨t, ht⟩ := fence_head first hf
    have hrest_ne : (mid ++ [fenceChars] : List (List Char)) ≠ [] := by simp
    have hJ : joinLines (first :: mid ++ [fenceChars]) =
        first ++ '\n' :: joinLines (mid ++ [fenceChars]) :=
      joinLines_cons _ _ hrest_ne
    have hJ2 : joinLines (first :: mid ++ [fenceChars]) =
        joinLines (first :: mid) ++ '\n' :: fenceChars := by
      have h' := joinLines_append_single (first :: mid) fenceChars (by simp)
      simpa using h'
    have hhead : joinLines (first :: mid ++ [fenceChars]) =
        Char.ofNat 96 :: (t ++ '\n' :: joinLines (mid ++ [fenceChars])) := by
      rw [hJ, ht]; rfl
    have hrevfence : ('\n' :: fenceChars).reverse =
        [Char.ofNat 96, Char.ofNat 96, Char.ofNat 96, '\n'] := by decide
    have hrev : (joinLines (first :: mid ++ [fenceChars])).reverse =
        Char.ofNat 96 :: (Char.ofNat 96 :: Char.ofNat 96 :: '\n' ::
          (joinLines (first :: mid)).reverse) := by
      rw [hJ2, List.reverse_append, hrevfence]
      rfl
    have hstrip : pyStrip (joinLines (first :: mid ++ [fenceChars])) =
        joinLines (first :: mid ++ [fenceChars]) :=
      pyStrip_eq_self _ (Char.ofNat 96) (Char.ofNat 96) _ _ hhead hrev
        (by decide) (by decide)
    have hsw : startsWithChars fenceChars (joinLines (first :: mid ++ [fenceChars])) = true := by
      rw [hJ]
      exact startsWithChars_append fenceChars first _ hf
    have hsplit : splitLines (joinLines (first :: mid ++ [fenceChars])) =
        first :: mid ++ [fenceChars] := by
      apply splitLines_joinLines _ (by simp)
      intro l hl
      rcases List.mem_cons.mp hl with h | h
      · subst h; exact hnf
      · rcases List.mem_append.mp h with h | h
        · exact hnm l h
        · rw [List.mem_singleton.mp h]; decide
    simp only [cleanText, hstrip, hsw, if_true]
    rw [hsplit]
    have hdl : ((first :: mid ++ [fenceChars]).drop 1).dropLast = mid := by
      simp
    rw [hdl]

/-- C6 witness: an undecodable text falls back, plain text is merely
stripped, and a fenced block loses its first and last lines. -/
theorem c6_response_parser_behaviour_witness :
    parseResponse (fun _ => none) (JVal.str "fb") "not json at all".data = JVal.str "fb" ∧
    cleanText "  plain text  ".data = pyStrip "  plain text  ".data ∧
    cleanText (joinLines ("```json".data :: ["payload line".data] ++ [fenceChars])) =
      pyStrip (joinLines ["payload line".data]) :=
  ⟨c6_response_parser_behaviour.1 (fun _ => none) (JVal.str "fb") "not json at all".data rfl,
   c6_response_parser_behaviour.2.1 "  plain text  ".data (by decide),
   c6_response_parser_behaviour.2.2 "```json".data ["payload line".data]
     (by decide) (by decide) (by decide)⟩
